import Mathlib

/-!
Shallow embedding of the `idnumber` Go package (South African ID numbers):
the identifier data model, the 13-character codec (parse and format), the
Luhn checksum integration of builder finalization, the configuration
combinators, and the random-identifier generator with its random draws made
explicit. Strings are modelled as lists of characters.
-/

namespace IdNum

/-- Character for the decimal digit `n` (ASCII `'0'`..`'9'` for `n < 10`). -/
def digitChar (n : Nat) : Char := Char.ofNat (48 + n)

/-- Numeric value of an ASCII digit character. -/
def digitVal (c : Char) : Nat := c.toNat - 48

/-- Whether a character is an ASCII decimal digit. -/
def isDigitCh (c : Char) : Bool := decide (48 ≤ c.toNat) && decide (c.toNat ≤ 57)

/-- Big-endian decimal digit characters of `n`, with explicit fuel
(the fuel bounds the number of division steps, as in the Go loop). -/
def digitsBE : Nat → Nat → List Char
  | 0, _ => []
  | f + 1, n => if n < 10 then [digitChar n] else digitsBE f (n / 10) ++ [digitChar (n % 10)]

/-- Decimal digit characters of `n` (what Go `fmt` prints for a non-negative int). -/
def natChars (n : Nat) : List Char := digitsBE (n + 1) n

/-- `n` printed zero-padded to at least `w` digits: Go `fmt` `%0.wd` on a
non-negative value (precision pads with leading zeros, never truncates). -/
def padNat (w n : Nat) : List Char := List.replicate (w - (natChars n).length) '0' ++ natChars n

/-- Go `fmt` `%d` on an int: optional minus sign followed by the digits. -/
def intChars (i : Int) : List Char :=
  if i < 0 then '-' :: natChars i.natAbs else natChars i.toNat

/-- Go `fmt` `%0.wd` on an int: zero-pads the digits after the sign. -/
def goPadInt (w : Nat) (i : Int) : List Char :=
  if i < 0 then '-' :: padNat w i.natAbs else padNat w i.toNat

/-- One step of reading a decimal number left to right. -/
def parseStep (a : Nat) (c : Char) : Nat := 10 * a + digitVal c

/-- Value of a non-empty, all-digit character list (the digit-consuming core of
Go `strconv.ParseUint`); `none` on empty input or any non-digit character. -/
def parseDigits (s : List Char) : Option Nat :=
  if s.isEmpty then none
  else if s.all isDigitCh then some (s.foldl parseStep 0) else none

/-- Go `strconv.ParseInt(s, 10, bits)`: an optional single leading `+` or `-`
sign, then decimal digits, with the signed range check of the bit size.
Any failure (syntax or range) is an error, modelled as `none`. -/
def goParseInt (bits : Nat) (s : List Char) : Option Int :=
  match s with
  | [] => none
  | c :: rest =>
    if c = '+' then
      (parseDigits rest).bind (fun n => if n ≤ 2 ^ (bits - 1) - 1 then some ((n : Int)) else none)
    else if c = '-' then
      (parseDigits rest).bind (fun n => if n ≤ 2 ^ (bits - 1) then some (-(n : Int)) else none)
    else
      (parseDigits (c :: rest)).bind
        (fun n => if n ≤ 2 ^ (bits - 1) - 1 then some ((n : Int)) else none)

/-- Calendar date (year, month, day), the data `time.Time` carries that this
library reads and writes; no time-of-day component is ever used. -/
structure Date where
  year : Nat
  month : Nat
  day : Nat
deriving DecidableEq

/-- Go `isLeap`: the proleptic Gregorian leap-year rule. -/
def isLeap (y : Nat) : Bool := (y % 4 == 0) && (!(y % 100 == 0) || y % 400 == 0)

/-- Days in a month, as Go `time.daysIn`. -/
def daysInMonth (y m : Nat) : Nat :=
  if m = 2 then (if isLeap y then 29 else 28)
  else if m = 4 ∨ m = 6 ∨ m = 9 ∨ m = 11 then 30 else 31

/-- A real calendar date: exactly the dates representable as a Go `time.Time`
civil date, i.e. the dates reachable as a draft birthdate. -/
def ValidDate (d : Date) : Prop :=
  1 ≤ d.month ∧ d.month ≤ 12 ∧ 1 ≤ d.day ∧ d.day ≤ daysInMonth d.year d.month

instance : DecidablePred ValidDate := fun d => by unfold ValidDate; infer_instance

/-- Go `time.Parse` two-digit-year pivot: `69..99` map to `19xx`, `00..68` to `20xx`. -/
def pivotYear (yy : Nat) : Nat := if 69 ≤ yy then 1900 + yy else 2000 + yy

/-- Go `time.Parse("060102", s)` on a 6-character slice: two fixed-width
two-digit numbers for year, month, day, the year expanded through the pivot
rule, and month/day validated against the real calendar. -/
def parseGoDate (s : List Char) : Option Date :=
  match parseDigits (s.take 2), parseDigits ((s.drop 2).take 2), parseDigits ((s.drop 4).take 2) with
  | some yy, some mm, some dd =>
    let y := pivotYear yy
    if 1 ≤ mm ∧ mm ≤ 12 ∧ 1 ≤ dd ∧ dd ≤ daysInMonth y mm then some ⟨y, mm, dd⟩ else none
  | _, _, _ => none

/-- Go `t.Format("060102")`: two-digit year, month and day, each zero-padded. -/
def format06 (d : Date) : List Char :=
  padNat 2 (d.year % 100) ++ padNat 2 d.month ++ padNat 2 d.day

/-- The `IDNumber` struct: birth date, gender code, citizenship and Luhn
checksum digit, with `-1` the unset-checksum sentinel of the builder. -/
structure IDNumber where
  birthdate : Date
  gender : Int
  citizenship : Int
  luhnValue : Int
deriving DecidableEq

/-- Errors of the package: `ErrIncorrectIDStringLength`, the `time.Parse`
error, a `strconv` numeric error carrying the offending substring, and
`ErrInvalidLuhnNumber`. -/
inductive Err where
  | lengthErr : Err
  | dateErr : Err
  | numeric : List Char → Err
  | invalidLuhn : Err
deriving DecidableEq

/-- `ConfigOption`: one builder step, a function from draft to draft or error. -/
def ConfigOption : Type := IDNumber → Except Err IDNumber

/-- `Citizen` encodes as digit 0. -/
def Citizen : Int := 0

/-- `PermanentResident` encodes as digit 1. -/
def PermanentResident : Int := 1

/-- `SetDate(day, month, year)`: stores `time.Date(year, month, day, ...)`.
Go normalizes out-of-range components by day arithmetic; on real calendar
dates (the only inputs the claims exercise) that normalization is the
identity, so the stored civil date is taken verbatim. -/
def SetDate (day month year : Nat) : ConfigOption :=
  fun idn => .ok { idn with birthdate := ⟨year, month, day⟩ }

/-- `SetGender`: stores the raw gender code. -/
def SetGender (g : Int) : ConfigOption :=
  fun idn => .ok { idn with gender := g }

/-- `setCitizenship`: stores the citizenship digit. -/
def setCitizenship (c : Int) : ConfigOption :=
  fun idn => .ok { idn with citizenship := c }

/-- `SetCitizen`. -/
def SetCitizen : ConfigOption := setCitizenship Citizen

/-- `SetResident`. -/
def SetResident : ConfigOption := setCitizenship PermanentResident

/-- `randomFemale`: `minFemale + rand.Intn(4999)` with the draw `r ∈ [0, 4998]`
made explicit. -/
def randomFemale (r : Nat) : Int := 0 + (r : Int)

/-- `randomMale`: `minMale + rand.Intn(4999)` with the draw `r ∈ [0, 4998]`
made explicit. -/
def randomMale (r : Nat) : Int := 5000 + (r : Int)

/-- `SetRandomFemale` with its random draw made explicit. -/
def SetRandomFemale (r : Nat) : ConfigOption := SetGender (randomFemale r)

/-- `SetRandomMale` with its random draw made explicit. -/
def SetRandomMale (r : Nat) : ConfigOption := SetGender (randomMale r)

/-- `SetFromString`: the parse-from-string step. Field extraction by the fixed
offsets of the Go constants: date `[0,6)`, gender `[6,10)`, citizenship
`[10,11)`, checksum `[12,13)`; index 11 (the legacy digit) is never read. -/
def SetFromString (s : List Char) : ConfigOption :=
  fun idn =>
    if s.length ≠ 13 then .error .lengthErr
    else
      match parseGoDate (s.take 6) with
      | none => .error .dateErr
      | some dt =>
        match goParseInt 32 ((s.drop 6).take 4) with
        | none => .error (.numeric ((s.drop 6).take 4))
        | some g =>
          match goParseInt 32 ((s.drop 10).take 1) with
          | none => .error (.numeric ((s.drop 10).take 1))
          | some c =>
            match goParseInt 32 ((s.drop 12).take 1) with
            | none => .error (.numeric ((s.drop 12).take 1))
            | some lv =>
              .ok { idn with birthdate := dt, gender := g, citizenship := c, luhnValue := lv }

/-- Doubling step of the Luhn algorithm on one digit. -/
def luhnDouble (d : Nat) : Nat :=
  let c := d * 2
  if c > 9 then c % 10 + c / 10 else c

/-- The digit-summing loop of `luhn.checksum`, doubling every second digit
starting from the rightmost; the fuel bounds the division steps. -/
def luhnSumF : Nat → Nat → Bool → Nat
  | 0, _, _ => 0
  | f + 1, n, dbl =>
    if n = 0 then 0
    else (if dbl then luhnDouble (n % 10) else n % 10) + luhnSumF f (n / 10) (!dbl)

/-- `luhn.checksum`: the doubled digit sum modulo 10. -/
def luhnChecksum (n : Nat) : Nat := luhnSumF (n + 1) n true % 10

/-- `luhn.CalculateLuhn` on a positive number: the gap to 10 of the checksum,
or 0 when the checksum is 0. -/
def luhnDigit (n : Nat) : Nat :=
  let cs := luhnChecksum n
  if cs = 0 then 0 else 10 - cs

/-- `luhn.CalculateLuhn` on a Go int: the loop body never runs for `n ≤ 0`,
giving check digit 0 there. -/
def luhnCalculate (n : Int) : Int :=
  if n ≤ 0 then 0 else (luhnDigit n.toNat : Int)

/-- The 12-character body `YYMMDDGGGGC8` that finalization builds with
`fmt.Sprintf` and that `String` extends with the checksum digit. -/
def bodyChars (idn : IDNumber) : List Char :=
  format06 idn.birthdate ++ goPadInt 4 idn.gender ++ intChars idn.citizenship ++ ['8']

/-- `IDNumber.String`: the canonical 13-character form. -/
def IDNumber.string (idn : IDNumber) : List Char := bodyChars idn ++ intChars idn.luhnValue

/-- Finalization tail of `NewIDNumber`: parse the body back as an int, compute
its Luhn check digit; a supplied checksum (`luhnValue > 0`) must match it,
otherwise the computed digit is stored. -/
def finalize (idn : IDNumber) : Except Err IDNumber :=
  match goParseInt 64 (bodyChars idn) with
  | none => .error (.numeric (bodyChars idn))
  | some p =>
    if 0 < idn.luhnValue then
      if idn.luhnValue ≠ luhnCalculate p then .error .invalidLuhn else .ok idn
    else .ok { idn with luhnValue := luhnCalculate p }

/-- Apply configuration steps in order, short-circuiting on the first error. -/
def applyAll : List ConfigOption → IDNumber → Except Err IDNumber
  | [], idn => .ok idn
  | o :: rest, idn =>
    match o idn with
    | .error e => .error e
    | .ok idn2 => applyAll rest idn2

/-- The zero draft of `NewIDNumber`: Go zero `time.Time` is 1 January of year
1, gender and citizenship zero, checksum sentinel `-1`. -/
def initDraft : IDNumber := ⟨⟨1, 1, 1⟩, 0, 0, -1⟩

/-- `NewIDNumber`: apply all steps to the zero draft, then finalize. -/
def NewIDNumber (opts : List ConfigOption) : Except Err IDNumber :=
  match applyAll opts initDraft with
  | .error e => .error e
  | .ok idn => finalize idn

/-- `NewID`: the simple builder from explicit fields. -/
def NewID (day month year : Nat) (gender : Int) (citizenship : Int) : Except Err IDNumber :=
  NewIDNumber [SetDate day month year, SetGender gender, setCitizenship citizenship]

/-- Gender branch of `RandomIDNumber`: `rand.Intn(100) > 50` picks female. -/
def genderBranchFemale (r : Nat) : Bool := 50 < r

/-- Citizenship branch of `RandomIDNumber`: `rand.Intn(100) > 50` picks `Citizen`. -/
def citizenBranchCitizen (r : Nat) : Bool := 50 < r

/-- `RandomIDNumber` with its random draws made explicit: `dt` is the civil
date of the uniformly drawn Unix second in the century window (always a valid
Gregorian date with year in `[1969, 2069]`), `gb` and `cb` are the two
`rand.Intn(100)` branch draws, and `gr` is the `rand.Intn(4999)` gender draw. -/
def RandomIDNumber (dt : Date) (gb gr cb : Nat) : Except Err IDNumber :=
  let genderOption := if genderBranchFemale gb then SetRandomFemale gr else SetRandomMale gr
  let citizenOption := if citizenBranchCitizen cb then SetCitizen else SetResident
  NewIDNumber [SetDate dt.day dt.month dt.year, genderOption, citizenOption]

/-- The value of the 12-digit body as the spec words it: the birth date as
`YYMMDD`, the gender code as 4 zero-padded digits, the citizenship digit, and
the fixed legacy digit 8, concatenated. -/
def bodyValue (idn : IDNumber) : Nat :=
  ((((idn.birthdate.year % 100) * 100 + idn.birthdate.month) * 100 + idn.birthdate.day) * 10000
      + idn.gender.toNat) * 100 + idn.citizenship.toNat * 10 + 8

/-! ### List slicing helpers -/

lemma take_app (l₁ l₂ : List Char) (n : Nat) :
    (l₁ ++ l₂).take (l₁.length + n) = l₁ ++ l₂.take n := by
  induction l₁ with
  | nil => simp
  | cons c t ih => simp [List.take, Nat.succ_add, ih]

lemma drop_app (l₁ l₂ : List Char) (n : Nat) :
    (l₁ ++ l₂).drop (l₁.length + n) = l₂.drop n := by
  induction l₁ with
  | nil => simp
  | cons c t ih => simp [List.drop, Nat.succ_add, ih]

lemma take_app_le (l₁ l₂ : List Char) (n : Nat) (h : n ≤ l₁.length) :
    (l₁ ++ l₂).take n = l₁.take n := by
  induction l₁ generalizing n with
  | nil => simp at h; simp [h]
  | cons c t ih =>
    cases n with
    | zero => simp
    | succ m =>
      simp only [List.cons_append, List.take]
      exact congrArg (List.cons c) (ih m (by simpa using h))

lemma getD_app (l₁ l₂ : List Char) (d : Char) :
    (l₁ ++ l₂).getD l₁.length d = l₂.getD 0 d := by
  induction l₁ with
  | nil => rfl
  | cons c t ih => simpa using ih

/-! ### Digit characters and fold lemmas -/

lemma digitChar_toNat (n : Nat) (h : n < 10) : (digitChar n).toNat = 48 + n := by
  interval_cases n <;> rfl

lemma isDigitCh_digitChar (n : Nat) (h : n < 10) : isDigitCh (digitChar n) = true := by
  interval_cases n <;> rfl

lemma digitVal_digitChar (n : Nat) (h : n < 10) : digitVal (digitChar n) = n := by
  interval_cases n <;> rfl

lemma digitChar_ne_plus (n : Nat) (h : n < 10) : digitChar n ≠ '+' := by
  interval_cases n <;> decide

lemma digitChar_ne_minus (n : Nat) (h : n < 10) : digitChar n ≠ '-' := by
  interval_cases n <;> decide

lemma isDigitCh_ne_sign (c : Char) (h : isDigitCh c = true) : c ≠ '+' ∧ c ≠ '-' := by
  unfold isDigitCh at h
  simp only [Bool.and_eq_true, decide_eq_true_eq] at h
  constructor <;> rintro rfl <;> revert h <;> decide

lemma digitsBE_all (f : Nat) : ∀ n, (digitsBE f n).all isDigitCh = true := by
  induction f with
  | zero => intro n; rfl
  | succ f ih =>
    intro n
    by_cases hn : n < 10
    · simp [digitsBE, hn, isDigitCh_digitChar n hn]
    · simp [digitsBE, hn, List.all_append, ih (n / 10),
        isDigitCh_digitChar (n % 10) (Nat.mod_lt n (by omega))]

lemma digitsBE_len_pos (f n : Nat) (hf : 1 ≤ f) : 1 ≤ (digitsBE f n).length := by
  cases f with
  | zero => omega
  | succ f =>
    by_cases hn : n < 10
    · simp [digitsBE, hn]
    · simp [digitsBE, hn]

lemma foldl_digitsBE (f : Nat) : ∀ n a, n < 10 ^ f →
    List.foldl parseStep a (digitsBE f n) = a * 10 ^ (digitsBE f n).length + n := by
  induction f with
  | zero =>
    intro n a h
    simp at h
    simp [digitsBE, h]
  | succ f ih =>
    intro n a h
    by_cases hn : n < 10
    · simp [digitsBE, hn, parseStep, digitVal_digitChar n hn]
      omega
    · have h10 : n / 10 < 10 ^ f := by
        rw [Nat.div_lt_iff_lt_mul (by omega)]
        calc n < 10 ^ (f + 1) := h
          _ = 10 ^ f * 10 := by rw [Nat.pow_succ]
      simp only [digitsBE, if_neg hn, List.foldl_append, List.length_append, List.length_cons,
        List.length_nil]
      rw [ih (n / 10) a h10]
      have hmod : 10 * (n / 10) + n % 10 = n := by omega
      set L := (digitsBE f (n / 10)).length with hL
      simp only [List.foldl_cons, List.foldl_nil, parseStep,
        digitVal_digitChar (n % 10) (Nat.mod_lt n (by omega))]
      calc 10 * (a * 10 ^ L + n / 10) + n % 10
          = a * (10 ^ L * 10) + (10 * (n / 10) + n % 10) := by ring
        _ = a * 10 ^ (L + 1) + n := by rw [hmod, pow_succ]

lemma digitsBE_len_le : ∀ f n w, n < 10 ^ w → 1 ≤ w → (digitsBE f n).length ≤ w := by
  intro f
  induction f with
  | zero => intro n w _ _; simp [digitsBE]
  | succ f ih =>
    intro n w h hw
    by_cases hn : n < 10
    · simp [digitsBE, hn]; omega
    · obtain ⟨w', rfl⟩ : ∃ w', w = w' + 1 := ⟨w - 1, by omega⟩
      have hw' : 1 ≤ w' := by
        by_contra hc
        have : w' = 0 := by omega
        subst this
        simp [pow_succ] at h
        omega
      have h10 : n / 10 < 10 ^ w' := by
        rw [Nat.div_lt_iff_lt_mul (by omega)]
        calc n < 10 ^ (w' + 1) := h
          _ = 10 ^ w' * 10 := by rw [Nat.pow_succ]
      simp only [digitsBE, if_neg hn, List.length_append, List.length_cons, List.length_nil]
      have := ih (n / 10) w' h10 hw'
      omega

lemma nat_lt_pow_self (n : Nat) : n < 10 ^ (n + 1) := by
  calc n < 10 ^ n := Nat.lt_pow_self (by omega) n
    _ ≤ 10 ^ (n + 1) := Nat.pow_le_pow_right (by omega) (by omega)

lemma natChars_all (n : Nat) : (natChars n).all isDigitCh = true := digitsBE_all _ n

lemma natChars_len_pos (n : Nat) : 1 ≤ (natChars n).length :=
  digitsBE_len_pos _ n (by omega)

lemma natChars_len_le (n w : Nat) (h : n < 10 ^ w) (hw : 1 ≤ w) : (natChars n).length ≤ w :=
  digitsBE_len_le _ n w h hw

lemma foldl_natChars (n a : Nat) :
    List.foldl parseStep a (natChars n) = a * 10 ^ (natChars n).length + n :=
  foldl_digitsBE _ n a (nat_lt_pow_self n)

lemma natChars_single (n : Nat) (h : n < 10) : natChars n = [digitChar n] := by
  simp [natChars, digitsBE, h]

/-! ### Zero padding lemmas -/

lemma foldl_replicate_zero (k : Nat) : ∀ a, List.foldl parseStep a (List.replicate k '0') = a * 10 ^ k := by
  induction k with
  | zero => intro a; simp
  | succ k ih =>
    intro a
    simp only [List.replicate, List.foldl_cons]
    rw [ih]
    have : parseStep a '0' = 10 * a := by simp [parseStep, digitVal]
    rw [this, pow_succ]
    ring

lemma padNat_length (w n : Nat) (h : n < 10 ^ w) (hw : 1 ≤ w) : (padNat w n).length = w := by
  unfold padNat
  have h1 := natChars_len_le n w h hw
  rw [List.length_append, List.length_replicate]
  omega

lemma padNat_all (w n : Nat) : (padNat w n).all isDigitCh = true := by
  unfold padNat
  rw [List.all_append]
  simp only [Bool.and_eq_true]
  constructor
  · rw [List.all_eq_true]
    intro c hc
    rw [List.eq_of_mem_replicate hc]
    rfl
  · exact natChars_all n

lemma padNat_ne_nil (w n : Nat) : padNat w n ≠ [] := by
  intro h
  have h1 := natChars_len_pos n
  have h2 : (padNat w n).length = 0 := by rw [h]; rfl
  rw [padNat, List.length_append] at h2
  omega

lemma foldl_padNat (w n a : Nat) (h : n < 10 ^ w) (hw : 1 ≤ w) :
    List.foldl parseStep a (padNat w n) = a * 10 ^ w + n := by
  unfold padNat
  rw [List.foldl_append, foldl_replicate_zero, foldl_natChars]
  have h1 := natChars_len_le n w h hw
  have : 10 ^ (w - (natChars n).length) * 10 ^ (natChars n).length = 10 ^ w := by
    rw [← pow_add]
    congr 1
    omega
  calc a * 10 ^ (w - (natChars n).length) * 10 ^ (natChars n).length + n
      = a * (10 ^ (w - (natChars n).length) * 10 ^ (natChars n).length) + n := by ring
    _ = a * 10 ^ w + n := by rw [this]

lemma parseDigits_padNat (w n : Nat) (h : n < 10 ^ w) (hw : 1 ≤ w) :
    parseDigits (padNat w n) = some n := by
  unfold parseDigits
  rw [if_neg (by simp [List.isEmpty_iff, padNat_ne_nil w n]), if_pos (padNat_all w n)]
  rw [foldl_padNat w n 0 h hw]
  simp

lemma take_app_exact (l₁ l₂ : List Char) (n : Nat) (h : l₁.length = n) :
    (l₁ ++ l₂).take n = l₁ := by
  subst h
  simp

lemma drop_app_exact (l₁ l₂ : List Char) (n : Nat) (h : l₁.length = n) :
    (l₁ ++ l₂).drop n = l₂ := by
  subst h
  simp

lemma take_exact (l : List Char) (n : Nat) (h : l.length = n) : l.take n = l := by
  subst h
  exact List.take_length l

lemma option_bind_some (x : Nat) (f : Nat → Option Int) : (some x).bind f = f x := rfl

/-! ### Lemmas on `goParseInt` -/

lemma goParseInt_digits (bits : Nat) (s : List Char) (hne : s ≠ [])
    (hall : s.all isDigitCh = true) (hb : List.foldl parseStep 0 s ≤ 2 ^ (bits - 1) - 1) :
    goParseInt bits s = some ((List.foldl parseStep 0 s : Nat) : Int) := by
  cases s with
  | nil => exact absurd rfl hne
  | cons c rest =>
    have hc : isDigitCh c = true := by
      rw [List.all_cons, Bool.and_eq_true] at hall
      exact hall.1
    obtain ⟨hp, hm⟩ := isDigitCh_ne_sign c hc
    show (if c = '+' then _ else if c = '-' then _ else
      (parseDigits (c :: rest)).bind
        (fun n => if n ≤ 2 ^ (bits - 1) - 1 then some ((n : Int)) else none)) = _
    rw [if_neg hp, if_neg hm]
    unfold parseDigits
    rw [if_neg (by simp), if_pos hall, option_bind_some, if_pos hb]

lemma goParseInt_padNat (bits w n : Nat) (h : n < 10 ^ w) (hw : 1 ≤ w)
    (hb : n ≤ 2 ^ (bits - 1) - 1) : goParseInt bits (padNat w n) = some ((n : Int)) := by
  have hv : List.foldl parseStep 0 (padNat w n) = n := by
    rw [foldl_padNat w n 0 h hw]
    simp
  rw [goParseInt_digits bits (padNat w n) (padNat_ne_nil w n) (padNat_all w n) (by rw [hv]; exact hb), hv]

lemma goParseInt_single (bits n : Nat) (h : n < 10) (hb : n ≤ 2 ^ (bits - 1) - 1) :
    goParseInt bits [digitChar n] = some ((n : Int)) := by
  have hv : List.foldl parseStep 0 [digitChar n] = n := by
    simp [parseStep, digitVal_digitChar n h]
  rw [goParseInt_digits bits [digitChar n] (by simp)
    (by simp [isDigitCh_digitChar n h]) (by rw [hv]; exact hb), hv]

/-! ### Dates: format and parse are inverse on the pivot window -/

lemma daysInMonth_le (y m : Nat) : daysInMonth y m ≤ 31 := by
  unfold daysInMonth
  split
  · split <;> omega
  · split <;> omega

lemma daysInMonth_pivot (y m : Nat) (h1 : 1969 ≤ y) (h2 : y ≤ 2069) :
    daysInMonth (pivotYear (y % 100)) m = daysInMonth y m := by
  by_cases hy : y ≤ 2068
  · have hp : pivotYear (y % 100) = y := by
      unfold pivotYear
      split <;> omega
    rw [hp]
  · have hy9 : y = 2069 := by omega
    subst hy9
    have hp : pivotYear (2069 % 100) = 1969 := by decide
    rw [hp]
    unfold daysInMonth
    have h69 : isLeap 1969 = false := by decide
    have h69b : isLeap 2069 = false := by decide
    rw [h69, h69b]

lemma parseGoDate_format06_piv (dt : Date) (hv : ValidDate dt) (h1 : 1969 ≤ dt.year)
    (h2 : dt.year ≤ 2069) :
    parseGoDate (format06 dt) = some ⟨pivotYear (dt.year % 100), dt.month, dt.day⟩ := by
  obtain ⟨y, m, d⟩ := dt
  obtain ⟨hm1, hm2, hd1, hd2⟩ := hv
  simp only at hm1 hm2 hd1 hd2 h1 h2
  have hmlt : m < 100 := by omega
  have hdlt : d < 100 := by
    have := daysInMonth_le y m
    omega
  have hylt : y % 100 < 100 := Nat.mod_lt y (by omega)
  have lyy : (padNat 2 (y % 100)).length = 2 := padNat_length 2 _ (by omega) (by omega)
  have lmm : (padNat 2 m).length = 2 := padNat_length 2 _ (by omega) (by omega)
  have ldd : (padNat 2 d).length = 2 := padNat_length 2 _ (by omega) (by omega)
  have hfmt : format06 ⟨y, m, d⟩ = padNat 2 (y % 100) ++ (padNat 2 m ++ padNat 2 d) := by
    show padNat 2 (y % 100) ++ padNat 2 m ++ padNat 2 d = _
    rw [List.append_assoc]
  have e1 : (format06 ⟨y, m, d⟩).take 2 = padNat 2 (y % 100) := by
    rw [hfmt]
    exact take_app_exact _ _ 2 lyy
  have edrop : (format06 ⟨y, m, d⟩).drop 2 = padNat 2 m ++ padNat 2 d := by
    rw [hfmt]
    exact drop_app_exact _ _ 2 lyy
  have e2 : ((format06 ⟨y, m, d⟩).drop 2).take 2 = padNat 2 m := by
    rw [edrop]
    exact take_app_exact _ _ 2 lmm
  have e3 : ((format06 ⟨y, m, d⟩).drop 4).take 2 = padNat 2 d := by
    have h4 : (format06 ⟨y, m, d⟩).drop 4 = padNat 2 d := by
      rw [hfmt, show (4 : Nat) = (padNat 2 (y % 100)).length + 2 by rw [lyy], drop_app]
      exact drop_app_exact _ _ 2 lmm
    rw [h4]
    exact take_exact _ 2 ldd
  have p1 : parseDigits ((format06 ⟨y, m, d⟩).take 2) = some (y % 100) := by
    rw [e1]
    exact parseDigits_padNat 2 _ (by omega) (by omega)
  have p2 : parseDigits (((format06 ⟨y, m, d⟩).drop 2).take 2) = some m := by
    rw [e2]
    exact parseDigits_padNat 2 _ (by omega) (by omega)
  have p3 : parseDigits (((format06 ⟨y, m, d⟩).drop 4).take 2) = some d := by
    rw [e3]
    exact parseDigits_padNat 2 _ (by omega) (by omega)
  unfold parseGoDate
  rw [p1, p2, p3]
  have hdm : d ≤ daysInMonth (pivotYear (y % 100)) m := by
    rw [daysInMonth_pivot y m h1 h2]
    exact hd2
  show (if 1 ≤ m ∧ m ≤ 12 ∧ 1 ≤ d ∧ d ≤ daysInMonth (pivotYear (y % 100)) m
    then some (Date.mk (pivotYear (y % 100)) m d) else none)
    = some (Date.mk (pivotYear (y % 100)) m d)
  rw [if_pos ⟨hm1, hm2, hd1, hdm⟩]

lemma pivotYear_window (y : Nat) (h1 : 1969 ≤ y) (h2 : y ≤ 2068) :
    pivotYear (y % 100) = y := by
  unfold pivotYear
  split <;> omega

lemma parseGoDate_format06 (dt : Date) (hv : ValidDate dt) (h1 : 1969 ≤ dt.year)
    (h2 : dt.year ≤ 2068) : parseGoDate (format06 dt) = some dt := by
  rw [parseGoDate_format06_piv dt hv h1 (by omega), pivotYear_window dt.year h1 h2]

/-! ### Luhn range facts -/

lemma luhnChecksum_lt (n : Nat) : luhnChecksum n < 10 := Nat.mod_lt _ (by omega)

lemma luhnDigit_le9 (n : Nat) : luhnDigit n ≤ 9 := by
  have h := luhnChecksum_lt n
  show (if luhnChecksum n = 0 then 0 else 10 - luhnChecksum n) ≤ 9
  split <;> omega

lemma luhnCalculate_nat (n : Nat) (h : 0 < n) :
    luhnCalculate ((n : Nat) : Int) = ((luhnDigit n : Nat) : Int) := by
  unfold luhnCalculate
  rw [if_neg (by omega)]
  simp

/-! ### Finalization characterized -/

lemma finalize_ok (d id : IDNumber) (h : finalize d = .ok id) :
    ∃ p, goParseInt 64 (bodyChars d) = some p ∧ id = { d with luhnValue := luhnCalculate p } := by
  cases hp : goParseInt 64 (bodyChars d) with
  | none =>
    simp only [finalize, hp] at h
    exact Except.noConfusion h
  | some p =>
    simp only [finalize, hp] at h
    refine ⟨p, rfl, ?_⟩
    by_cases h0 : 0 < d.luhnValue
    · rw [if_pos h0] at h
      by_cases hne : d.luhnValue ≠ luhnCalculate p
      · rw [if_pos hne] at h
        exact Except.noConfusion h
      · rw [if_neg hne] at h
        injection h with h2
        push_neg at hne
        subst h2
        obtain ⟨bd, g, c, lv⟩ := d
        simp only at hne
        exact congrArg (IDNumber.mk bd g c) hne
    · rw [if_neg h0] at h
      injection h with h2
      exact h2.symm

lemma finalize_compute (d : IDNumber) (p : Int) (hp : goParseInt 64 (bodyChars d) = some p)
    (h0 : ¬ 0 < d.luhnValue) : finalize d = .ok { d with luhnValue := luhnCalculate p } := by
  simp only [finalize, hp]
  rw [if_neg h0]

lemma finalize_match (d : IDNumber) (p : Int) (hp : goParseInt 64 (bodyChars d) = some p)
    (h0 : 0 < d.luhnValue) (heq : d.luhnValue = luhnCalculate p) : finalize d = .ok d := by
  simp only [finalize, hp]
  rw [if_pos h0, if_neg (by omega)]

/-! ### The 12-character body: shape, length, digits and value -/

lemma bodyChars_eq (d : IDNumber) (hg0 : 0 ≤ d.gender) (hc0 : 0 ≤ d.citizenship)
    (hc : d.citizenship ≤ 9) :
    bodyChars d = padNat 2 (d.birthdate.year % 100) ++ padNat 2 d.birthdate.month
      ++ padNat 2 d.birthdate.day ++ padNat 4 d.gender.toNat
      ++ [digitChar d.citizenship.toNat] ++ ['8'] := by
  unfold bodyChars format06 goPadInt intChars
  rw [if_neg (by omega), if_neg (by omega), natChars_single d.citizenship.toNat (by omega)]

lemma bodyChars_length (d : IDNumber) (hv : ValidDate d.birthdate) (hg0 : 0 ≤ d.gender)
    (hg : d.gender ≤ 9999) (hc0 : 0 ≤ d.citizenship) (hc : d.citizenship ≤ 9) :
    (bodyChars d).length = 12 := by
  obtain ⟨hm1, hm2, hd1, hd2⟩ := hv
  have hd31 := daysInMonth_le d.birthdate.year d.birthdate.month
  rw [bodyChars_eq d hg0 hc0 hc]
  simp only [List.length_append, List.length_cons, List.length_nil]
  rw [padNat_length 2 (d.birthdate.year % 100) (by omega) (by omega),
    padNat_length 2 d.birthdate.month (by omega) (by omega),
    padNat_length 2 d.birthdate.day (by omega) (by omega),
    padNat_length 4 d.gender.toNat (by omega) (by omega)]

lemma body_parse (d : IDNumber) (hv : ValidDate d.birthdate) (hg0 : 0 ≤ d.gender)
    (hg : d.gender ≤ 9999) (hc0 : 0 ≤ d.citizenship) (hc : d.citizenship ≤ 9) :
    goParseInt 64 (bodyChars d) = some ((bodyValue d : Nat) : Int) := by
  obtain ⟨hm1, hm2, hd1, hd2⟩ := hv
  have hd31 := daysInMonth_le d.birthdate.year d.birthdate.month
  have hyy : d.birthdate.year % 100 < 100 := Nat.mod_lt _ (by omega)
  have hgn : d.gender.toNat < 10000 := by omega
  have hcn : d.citizenship.toNat < 10 := by omega
  rw [bodyChars_eq d hg0 hc0 hc]
  have hall : (padNat 2 (d.birthdate.year % 100) ++ padNat 2 d.birthdate.month
      ++ padNat 2 d.birthdate.day ++ padNat 4 d.gender.toNat
      ++ [digitChar d.citizenship.toNat] ++ ['8']).all isDigitCh = true := by
    simp only [List.all_append, List.all_cons, List.all_nil, Bool.and_eq_true, Bool.and_true]
    refine ⟨⟨⟨⟨⟨?_, ?_⟩, ?_⟩, ?_⟩, ?_⟩, ?_⟩ <;>
      first
        | exact padNat_all _ _
        | exact isDigitCh_digitChar _ hcn
        | decide
  have hne : (padNat 2 (d.birthdate.year % 100) ++ padNat 2 d.birthdate.month
      ++ padNat 2 d.birthdate.day ++ padNat 4 d.gender.toNat
      ++ [digitChar d.citizenship.toNat] ++ ['8']) ≠ [] := by
    intro hcontra
    have := congrArg List.length hcontra
    simp at this
  have hfold : List.foldl parseStep 0 (padNat 2 (d.birthdate.year % 100)
      ++ padNat 2 d.birthdate.month ++ padNat 2 d.birthdate.day ++ padNat 4 d.gender.toNat
      ++ [digitChar d.citizenship.toNat] ++ ['8']) = bodyValue d := by
    rw [List.foldl_append, List.foldl_append, List.foldl_append, List.foldl_append,
      List.foldl_append]
    rw [foldl_padNat 2 _ 0 hyy (by omega), foldl_padNat 2 _ _ (by omega) (by omega),
      foldl_padNat 2 _ _ (by omega) (by omega), foldl_padNat 4 _ _ hgn (by omega)]
    simp only [List.foldl_cons, List.foldl_nil, parseStep,
      digitVal_digitChar _ hcn]
    have h8 : digitVal '8' = 8 := by decide
    rw [h8]
    unfold bodyValue
    omega
  rw [goParseInt_digits 64 _ hne hall (by rw [hfold]; unfold bodyValue; omega), hfold]

lemma bodyValue_pos (d : IDNumber) : 0 < bodyValue d := by
  unfold bodyValue
  omega

/-! ### Parsing the canonical string back -/

lemma pivotYear_mod (yy : Nat) (h : yy < 100) : pivotYear yy % 100 = yy := by
  unfold pivotYear
  split <;> omega

lemma string_shape (id : IDNumber) (hl0 : 0 ≤ id.luhnValue) (hl9 : id.luhnValue ≤ 9) :
    IDNumber.string id = bodyChars id ++ [digitChar id.luhnValue.toNat] := by
  unfold IDNumber.string intChars
  rw [if_neg (by omega), natChars_single id.luhnValue.toNat (by omega)]

lemma SetFromString_ok (s : List Char) (idn : IDNumber) (dt : Date) (g c lv : Int)
    (h13 : s.length = 13)
    (h1 : parseGoDate (s.take 6) = some dt)
    (h2 : goParseInt 32 ((s.drop 6).take 4) = some g)
    (h3 : goParseInt 32 ((s.drop 10).take 1) = some c)
    (h4 : goParseInt 32 ((s.drop 12).take 1) = some lv) :
    SetFromString s idn = .ok ⟨dt, g, c, lv⟩ := by
  simp only [SetFromString]
  rw [if_neg (by omega), h1, h2, h3, h4]

lemma NewIDNumber_single (o : ConfigOption) (d : IDNumber) (h : o initDraft = .ok d) :
    NewIDNumber [o] = finalize d := by
  simp only [NewIDNumber, applyAll, h]

lemma roundtrip_core (d id : IDNumber) (hv : ValidDate d.birthdate)
    (hy1 : 1969 ≤ d.birthdate.year) (hy2 : d.birthdate.year ≤ 2069)
    (hg0 : 0 ≤ d.gender) (hg : d.gender ≤ 9999)
    (hc0 : 0 ≤ d.citizenship) (hc : d.citizenship ≤ 9)
    (hfin : finalize d = .ok id) :
    NewIDNumber [SetFromString (IDNumber.string id)] =
      .ok { id with birthdate := ⟨pivotYear (d.birthdate.year % 100),
                                  d.birthdate.month, d.birthdate.day⟩ } := by
  obtain ⟨hm1, hm2, hd1, hd2⟩ := hv
  have hd31 := daysInMonth_le d.birthdate.year d.birthdate.month
  have hyy : d.birthdate.year % 100 < 100 := Nat.mod_lt _ (by omega)
  have hgn : d.gender.toNat ≤ 9999 := by omega
  have hcn : d.citizenship.toNat ≤ 9 := by omega
  obtain ⟨p, hp, hid⟩ := finalize_ok d id hfin
  rw [body_parse d ⟨hm1, hm2, hd1, hd2⟩ hg0 hg hc0 hc] at hp
  have hp2 : ((bodyValue d : Nat) : Int) = p := Option.some.inj hp
  subst hp2
  rw [luhnCalculate_nat (bodyValue d) (bodyValue_pos d)] at hid
  set L : Nat := luhnDigit (bodyValue d) with hLdef
  have hL9 : L ≤ 9 := luhnDigit_le9 (bodyValue d)
  subst hid
  -- the canonical string and its segments
  have hs : IDNumber.string { d with luhnValue := ((L : Nat) : Int) }
      = format06 d.birthdate ++ (padNat 4 d.gender.toNat
        ++ ([digitChar d.citizenship.toNat] ++ (['8'] ++ [digitChar L]))) := by
    rw [string_shape { d with luhnValue := ((L : Nat) : Int) }
      (by show (0 : Int) ≤ ((L : Nat) : Int); omega)
      (by show ((L : Nat) : Int) ≤ 9; omega)]
    have h2 : ({ d with luhnValue := ((L : Nat) : Int) } : IDNumber).luhnValue.toNat = L := by
      show ((L : Nat) : Int).toNat = L
      omega
    rw [h2]
    show bodyChars d ++ [digitChar L] = _
    rw [bodyChars_eq d hg0 hc0 hc]
    show format06 d.birthdate ++ padNat 4 d.gender.toNat ++ [digitChar d.citizenship.toNat]
      ++ ['8'] ++ [digitChar L] = _
    simp only [List.append_assoc]
  have hfml : (format06 d.birthdate).length = 6 := by
    unfold format06
    rw [List.length_append, List.length_append,
      padNat_length 2 (d.birthdate.year % 100) (by omega) (by omega),
      padNat_length 2 d.birthdate.month (by omega) (by omega),
      padNat_length 2 d.birthdate.day (by omega) (by omega)]
  have l4 : (padNat 4 d.gender.toNat).length = 4 :=
    padNat_length 4 d.gender.toNat (by omega) (by omega)
  set s := IDNumber.string { d with luhnValue := ((L : Nat) : Int) } with hsdef
  have hlen : s.length = 13 := by
    rw [hs]
    simp only [List.length_append, List.length_cons, List.length_nil]
    rw [hfml, l4]
  have t6 : s.take 6 = format06 d.birthdate := by
    rw [hs]
    exact take_app_exact _ _ 6 hfml
  have d6 : s.drop 6 = padNat 4 d.gender.toNat
      ++ ([digitChar d.citizenship.toNat] ++ (['8'] ++ [digitChar L])) := by
    rw [hs]
    exact drop_app_exact _ _ 6 hfml
  have t4 : (s.drop 6).take 4 = padNat 4 d.gender.toNat := by
    rw [d6]
    exact take_app_exact _ _ 4 l4
  have d10 : s.drop 10 = [digitChar d.citizenship.toNat] ++ (['8'] ++ [digitChar L]) := by
    rw [hs, show (10 : Nat) = (format06 d.birthdate).length + 4 by rw [hfml], drop_app]
    exact drop_app_exact _ _ 4 l4
  have t10 : (s.drop 10).take 1 = [digitChar d.citizenship.toNat] := by
    rw [d10]
    exact take_app_exact _ _ 1 rfl
  have d12 : s.drop 12 = [digitChar L] := by
    rw [hs, show (12 : Nat) = (format06 d.birthdate).length + 6 by rw [hfml], drop_app,
      show (6 : Nat) = (padNat 4 d.gender.toNat).length + 2 by rw [l4], drop_app]
    rfl
  have t12 : (s.drop 12).take 1 = [digitChar L] := by
    rw [d12]
    rfl
  -- parse all four fields back
  have pd : parseGoDate (s.take 6)
      = some ⟨pivotYear (d.birthdate.year % 100), d.birthdate.month, d.birthdate.day⟩ := by
    rw [t6]
    exact parseGoDate_format06_piv d.birthdate ⟨hm1, hm2, hd1, hd2⟩ hy1 hy2
  have pg : goParseInt 32 ((s.drop 6).take 4) = some ((d.gender.toNat : Nat) : Int) := by
    rw [t4]
    exact goParseInt_padNat 32 4 d.gender.toNat (by omega) (by omega) (by omega)
  have pc : goParseInt 32 ((s.drop 10).take 1) = some ((d.citizenship.toNat : Nat) : Int) := by
    rw [t10]
    exact goParseInt_single 32 d.citizenship.toNat (by omega) (by omega)
  have pl : goParseInt 32 ((s.drop 12).take 1) = some ((L : Nat) : Int) := by
    rw [t12]
    exact goParseInt_single 32 L (by omega) (by omega)
  have hparse : SetFromString s initDraft
      = .ok ⟨⟨pivotYear (d.birthdate.year % 100), d.birthdate.month, d.birthdate.day⟩,
             ((d.gender.toNat : Nat) : Int), ((d.citizenship.toNat : Nat) : Int),
             ((L : Nat) : Int)⟩ :=
    SetFromString_ok s initDraft _ _ _ _ hlen pd pg pc pl
  rw [NewIDNumber_single (SetFromString s) _ hparse]
  -- re-finalizing the parsed draft succeeds and changes nothing
  have hbd2 : bodyChars ⟨⟨pivotYear (d.birthdate.year % 100), d.birthdate.month,
      d.birthdate.day⟩, ((d.gender.toNat : Nat) : Int), ((d.citizenship.toNat : Nat) : Int),
      ((L : Nat) : Int)⟩ = bodyChars d := by
    rw [bodyChars_eq _ (by show (0 : Int) ≤ ((d.gender.toNat : Nat) : Int); omega)
      (by show (0 : Int) ≤ ((d.citizenship.toNat : Nat) : Int); omega)
      (by show ((d.citizenship.toNat : Nat) : Int) ≤ 9; omega)]
    rw [bodyChars_eq d hg0 hc0 hc]
    dsimp only
    rw [pivotYear_mod (d.birthdate.year % 100) hyy]
    have e1 : ((d.gender.toNat : Nat) : Int).toNat = d.gender.toNat := by omega
    have e2 : ((d.citizenship.toNat : Nat) : Int).toNat = d.citizenship.toNat := by omega
    rw [e1, e2]
  have hp2 : goParseInt 64 (bodyChars ⟨⟨pivotYear (d.birthdate.year % 100), d.birthdate.month,
      d.birthdate.day⟩, ((d.gender.toNat : Nat) : Int), ((d.citizenship.toNat : Nat) : Int),
      ((L : Nat) : Int)⟩) = some ((bodyValue d : Nat) : Int) := by
    rw [hbd2]
    exact body_parse d ⟨hm1, hm2, hd1, hd2⟩ hg0 hg hc0 hc
  have hgid : ((d.gender.toNat : Nat) : Int) = d.gender := Int.toNat_of_nonneg hg0
  have hcid : ((d.citizenship.toNat : Nat) : Int) = d.citizenship := Int.toNat_of_nonneg hc0
  by_cases hL0 : (0 : Int) < ((L : Nat) : Int)
  · rw [finalize_match _ _ hp2 hL0
      (by show ((L : Nat) : Int) = _
          rw [luhnCalculate_nat (bodyValue d) (bodyValue_pos d)])]
    rw [hgid, hcid]
  · rw [finalize_compute _ _ hp2 hL0]
    have hLz : L = 0 := by omega
    rw [luhnCalculate_nat (bodyValue d) (bodyValue_pos d)]
    show Except.ok (IDNumber.mk _ _ _ _) = _
    rw [hgid, hcid, ← hLdef, hLz]

lemma drop_app_le (l₁ l₂ : List Char) (n : Nat) (h : n ≤ l₁.length) :
    (l₁ ++ l₂).drop n = l₁.drop n ++ l₂ := by
  induction l₁ generalizing n with
  | nil =>
    simp at h
    simp [h]
  | cons c t ih =>
    cases n with
    | zero => simp
    | succ m =>
      simp only [List.cons_append, List.drop_succ_cons]
      exact ih m (by simpa using h)

lemma NewIDNumber_eq (opts : List ConfigOption) (d : IDNumber)
    (h : applyAll opts initDraft = .ok d) : NewIDNumber opts = finalize d := by
  simp only [NewIDNumber, h]

/-- Position 11 of the canonical string of any finalized identifier holds the
fixed legacy digit 8. -/
lemma string_getD11 (d id : IDNumber) (hv : ValidDate d.birthdate) (hg0 : 0 ≤ d.gender)
    (hg : d.gender ≤ 9999) (hc0 : 0 ≤ d.citizenship) (hc : d.citizenship ≤ 9)
    (hfin : finalize d = .ok id) : (IDNumber.string id).getD 11 ' ' = '8' := by
  obtain ⟨hm1, hm2, hd1, hd2⟩ := hv
  have hd31 := daysInMonth_le d.birthdate.year d.birthdate.month
  have hyy : d.birthdate.year % 100 < 100 := Nat.mod_lt _ (by omega)
  obtain ⟨p, hp, hid⟩ := finalize_ok d id hfin
  rw [body_parse d ⟨hm1, hm2, hd1, hd2⟩ hg0 hg hc0 hc] at hp
  have hp2 := Option.some.inj hp
  subst hp2
  rw [luhnCalculate_nat (bodyValue d) (bodyValue_pos d)] at hid
  set L : Nat := luhnDigit (bodyValue d) with hLdef
  have hL9 : L ≤ 9 := luhnDigit_le9 (bodyValue d)
  subst hid
  have hs : IDNumber.string { d with luhnValue := ((L : Nat) : Int) }
      = (format06 d.birthdate ++ (padNat 4 d.gender.toNat ++ [digitChar d.citizenship.toNat]))
        ++ ('8' :: [digitChar L]) := by
    rw [string_shape { d with luhnValue := ((L : Nat) : Int) }
      (by show (0 : Int) ≤ ((L : Nat) : Int); omega)
      (by show ((L : Nat) : Int) ≤ 9; omega)]
    have h2 : ({ d with luhnValue := ((L : Nat) : Int) } : IDNumber).luhnValue.toNat = L := by
      show ((L : Nat) : Int).toNat = L
      omega
    rw [h2]
    show bodyChars d ++ [digitChar L] = _
    rw [bodyChars_eq d hg0 hc0 hc]
    simp only [format06, List.append_assoc, List.singleton_append, List.cons_append,
      List.nil_append]
  rw [hs]
  have hlen11 : (format06 d.birthdate ++ (padNat 4 d.gender.toNat
      ++ [digitChar d.citizenship.toNat])).length = 11 := by
    unfold format06
    simp only [List.length_append, List.length_cons, List.length_nil,
      padNat_length 2 (d.birthdate.year % 100) (by omega) (by omega),
      padNat_length 2 d.birthdate.month (by omega) (by omega),
      padNat_length 2 d.birthdate.day (by omega) (by omega),
      padNat_length 4 d.gender.toNat (by omega) (by omega)]
  rw [← hlen11, getD_app]
  rfl

/-- Core of the random generator: any draft built from a valid civil date,
an in-range gender code and a citizenship digit finalizes successfully, and
its string form parses and re-finalizes successfully. -/
lemma random_core (dt : Date) (G C : Int) (hG0 : 0 ≤ G) (hG9 : G ≤ 9999)
    (hC0 : 0 ≤ C) (hC9 : C ≤ 9) (hv : ValidDate dt)
    (hy1 : 1969 ≤ dt.year) (hy2 : dt.year ≤ 2069) :
    ∃ id id2,
      NewIDNumber [SetDate dt.day dt.month dt.year, SetGender G, setCitizenship C] = .ok id
      ∧ NewIDNumber [SetFromString (IDNumber.string id)] = .ok id2 := by
  have happ : applyAll [SetDate dt.day dt.month dt.year, SetGender G, setCitizenship C]
      initDraft = .ok ⟨dt, G, C, -1⟩ := rfl
  have hfin : finalize (⟨dt, G, C, -1⟩ : IDNumber)
      = .ok { (⟨dt, G, C, -1⟩ : IDNumber) with
              luhnValue := luhnCalculate ((bodyValue ⟨dt, G, C, -1⟩ : Nat) : Int) } :=
    finalize_compute _ _ (body_parse ⟨dt, G, C, -1⟩ hv hG0 hG9 hC0 hC9)
      (by show ¬ (0 : Int) < -1; omega)
  refine ⟨_, _, ?_, roundtrip_core ⟨dt, G, C, -1⟩ _ hv hy1 hy2 hG0 hG9 hC0 hC9 hfin⟩
  rw [NewIDNumber_eq _ _ happ]
  exact hfin

/-! ## Claim theorems -/

/-- C1: the code contradicts the claim at a supplied checksum digit of 0.
The checksum of the body 810709500508 is 3, and parsing "8107095005080"
stores the supplied checksum digit 0; the claim demands that finalization
then fail with the checksum-mismatch error, but the `luhnValue > 0` sentinel
test treats the supplied 0 as absent and finalization silently succeeds with
the recomputed digit 3. -/
theorem checksum_zero_treated_as_unset :
    luhnDigit 810709500508 = 3
    ∧ SetFromString (("8107095005080").toList) initDraft
        = .ok ⟨⟨1981, 7, 9⟩, 5005, 0, 0⟩
    ∧ NewIDNumber [SetFromString (("8107095005080").toList)]
        = .ok ⟨⟨1981, 7, 9⟩, 5005, 0, 3⟩ :=
  ⟨rfl, rfl, rfl⟩

/-- C2 counterexample: the round trip fails on identifiers that pass
finalization but sit outside the two-digit-year pivot window or the 4-digit
gender range. Year 1950 finalizes fine yet parses back as year 2050; gender
code 12345 finalizes fine yet its formatted string has 14 characters, so
re-parsing fails with the length error. -/
theorem roundtrip_cex :
    NewID 9 7 1950 5005 Citizen = .ok ⟨⟨1950, 7, 9⟩, 5005, 0, 8⟩
    ∧ NewIDNumber [SetFromString (IDNumber.string ⟨⟨1950, 7, 9⟩, 5005, 0, 8⟩)]
        = .ok ⟨⟨2050, 7, 9⟩, 5005, 0, 8⟩
    ∧ (2050 : Nat) ≠ 1950
    ∧ NewID 9 7 1981 12345 Citizen = .ok ⟨⟨1981, 7, 9⟩, 12345, 0, 4⟩
    ∧ NewIDNumber [SetFromString (IDNumber.string ⟨⟨1981, 7, 9⟩, 12345, 0, 4⟩)]
        = .error .lengthErr :=
  ⟨rfl, rfl, by omega, rfl, rfl⟩

/-- C2 (amended): format is the exact inverse of parse for every Identifier
that passed finalization validation whose gender code lies in [0, 9999] and
whose birth year lies in the parse pivot window [1969, 2068]: parsing its
13-character formatted string and finalizing returns the identical
Identifier. -/
theorem roundtrip_format_parse (d id : IDNumber) (hv : ValidDate d.birthdate)
    (hy1 : 1969 ≤ d.birthdate.year) (hy2 : d.birthdate.year ≤ 2068)
    (hg0 : 0 ≤ d.gender) (hg : d.gender ≤ 9999)
    (hc0 : 0 ≤ d.citizenship) (hc : d.citizenship ≤ 9)
    (hfin : finalize d = .ok id) :
    NewIDNumber [SetFromString (IDNumber.string id)] = .ok id := by
  obtain ⟨p, hp, hid⟩ := finalize_ok d id hfin
  have hb : (⟨pivotYear (d.birthdate.year % 100), d.birthdate.month, d.birthdate.day⟩ : Date)
      = d.birthdate := by
    rw [pivotYear_window d.birthdate.year hy1 hy2]
  rw [roundtrip_core d id hv hy1 (by omega) hg0 hg hc0 hc hfin, hb]
  subst hid
  rfl

/-- C2 witness: the round-trip theorem applied at the concrete identifier of
scenario A. -/
theorem roundtrip_format_parse_witness :
    NewIDNumber [SetFromString (IDNumber.string ⟨⟨1981, 7, 9⟩, 5005, 0, 3⟩)]
      = .ok ⟨⟨1981, 7, 9⟩, 5005, 0, 3⟩ :=
  roundtrip_format_parse ⟨⟨1981, 7, 9⟩, 5005, 0, -1⟩ ⟨⟨1981, 7, 9⟩, 5005, 0, 3⟩
    (by decide) (by decide) (by decide) (by decide) (by decide) (by decide) (by decide) (by rfl)

/-- C3 counterexample: `randomMale` adds `rand.Intn(4999)`, whose draws are
0..4998, to 5000, so the gender code 9999 is never produced; the claimed
range [5000, 9999] is wrong. -/
theorem randomMale_cex : ¬ ∃ r, r < 4999 ∧ randomMale r = 9999 := by
  rintro ⟨r, hr, he⟩
  unfold randomMale at he
  omega

/-- C3 (amended): the random male step is a bijection from the draws 0..4998
onto the gender codes [5000, 9998] (so uniform over that range, with 9999
unattainable), and the random female step likewise onto [0, 4998] (4999
unattainable). -/
theorem random_gender_ranges :
    (∀ r, r < 4999 → 5000 ≤ randomMale r ∧ randomMale r ≤ 9998)
    ∧ (∀ v : Int, 5000 ≤ v → v ≤ 9998 → ∃ r, r < 4999 ∧ randomMale r = v)
    ∧ (∀ r, r < 4999 → 0 ≤ randomFemale r ∧ randomFemale r ≤ 4998)
    ∧ (∀ v : Int, 0 ≤ v → v ≤ 4998 → ∃ r, r < 4999 ∧ randomFemale r = v) := by
  refine ⟨?_, ?_, ?_, ?_⟩
  · intro r hr
    unfold randomMale
    omega
  · intro v h1 h2
    refine ⟨(v - 5000).toNat, by omega, ?_⟩
    unfold randomMale
    omega
  · intro r hr
    unfold randomFemale
    omega
  · intro v h1 h2
    refine ⟨v.toNat, by omega, ?_⟩
    unfold randomFemale
    omega

/-- C3 witness: the range and surjectivity facts at concrete values. -/
theorem random_gender_ranges_witness :
    (5000 ≤ randomMale 17 ∧ randomMale 17 ≤ 9998)
    ∧ (∃ r, r < 4999 ∧ randomMale r = 9998)
    ∧ (0 ≤ randomFemale 17 ∧ randomFemale 17 ≤ 4998)
    ∧ (∃ r, r < 4999 ∧ randomFemale r = 0) :=
  ⟨random_gender_ranges.1 17 (by omega),
   random_gender_ranges.2.1 9998 (by omega) (by omega),
   random_gender_ranges.2.2.1 17 (by omega),
   random_gender_ranges.2.2.2 0 (by omega) (by omega)⟩

/-- C4: every draft that finalization accepts comes out with its checksum
digit equal to the Luhn check digit of the 12-digit number formed by the
birth date as YYMMDD, the 4-digit zero-padded gender code, the citizenship
digit and the fixed legacy digit 8 (`bodyValue`), whichever configuration
steps produced the draft. -/
theorem checksum_invariant (d id : IDNumber) (hv : ValidDate d.birthdate)
    (hg0 : 0 ≤ d.gender) (hg : d.gender ≤ 9999)
    (hc0 : 0 ≤ d.citizenship) (hc : d.citizenship ≤ 9)
    (hfin : finalize d = .ok id) :
    id.luhnValue = ((luhnDigit (bodyValue id) : Nat) : Int) := by
  obtain ⟨p, hp, hid⟩ := finalize_ok d id hfin
  rw [body_parse d hv hg0 hg hc0 hc] at hp
  have hp2 := Option.some.inj hp
  subst hp2
  subst hid
  show luhnCalculate ((bodyValue d : Nat) : Int) = _
  have hbv : bodyValue { d with luhnValue := luhnCalculate ((bodyValue d : Nat) : Int) }
      = bodyValue d := rfl
  rw [hbv, luhnCalculate_nat (bodyValue d) (bodyValue_pos d)]

/-- C4 witness: the invariant theorem applied at the scenario-A identifier. -/
theorem checksum_invariant_witness :
    (⟨⟨1981, 7, 9⟩, 5005, 0, 3⟩ : IDNumber).luhnValue
      = ((luhnDigit (bodyValue ⟨⟨1981, 7, 9⟩, 5005, 0, 3⟩) : Nat) : Int) :=
  checksum_invariant ⟨⟨1981, 7, 9⟩, 5005, 0, -1⟩ ⟨⟨1981, 7, 9⟩, 5005, 0, 3⟩
    (by decide) (by decide) (by decide) (by decide) (by decide) (by rfl)

/-- C5: building with date 9 July 1981, gender code 5005 and Citizen
succeeds, and the result formats exactly as "8107095005083". -/
theorem scenario_A :
    NewID 9 7 1981 5005 Citizen = .ok ⟨⟨1981, 7, 9⟩, 5005, 0, 3⟩
    ∧ IDNumber.string ⟨⟨1981, 7, 9⟩, 5005, 0, 3⟩ = ("8107095005083").toList :=
  ⟨rfl, rfl⟩

/-- C6: the random generator never fails: for every date the uniformly drawn
Unix second can denote (a valid civil date with year in [1969, 2069]), every
branch draw and every in-range gender draw, it returns a finalized
Identifier, and parsing that identifier's formatted string and re-running
finalization also succeeds (in particular, never with the checksum-mismatch
error). -/
theorem random_generator_total (dt : Date) (gb gr cb : Nat) (hgr : gr < 4999)
    (hv : ValidDate dt) (hy1 : 1969 ≤ dt.year) (hy2 : dt.year ≤ 2069) :
    ∃ id id2, RandomIDNumber dt gb gr cb = .ok id
      ∧ NewIDNumber [SetFromString (IDNumber.string id)] = .ok id2 := by
  unfold RandomIDNumber
  by_cases hgb : genderBranchFemale gb <;> by_cases hcb : citizenBranchCitizen cb <;>
    simp only [hgb, hcb, if_true, if_false]
  · exact random_core dt (randomFemale gr) Citizen (by unfold randomFemale; omega)
      (by unfold randomFemale; omega) (by unfold Citizen; omega) (by unfold Citizen; omega)
      hv hy1 hy2
  · exact random_core dt (randomFemale gr) PermanentResident (by unfold randomFemale; omega)
      (by unfold randomFemale; omega) (by unfold PermanentResident; omega)
      (by unfold PermanentResident; omega) hv hy1 hy2
  · exact random_core dt (randomMale gr) Citizen (by unfold randomMale; omega)
      (by unfold randomMale; omega) (by unfold Citizen; omega) (by unfold Citizen; omega)
      hv hy1 hy2
  · exact random_core dt (randomMale gr) PermanentResident (by unfold randomMale; omega)
      (by unfold randomMale; omega) (by unfold PermanentResident; omega)
      (by unfold PermanentResident; omega) hv hy1 hy2

/-- C6 witness: the generator theorem at a concrete date and concrete draws. -/
theorem random_generator_total_witness :
    ∃ id id2, RandomIDNumber ⟨1981, 7, 9⟩ 60 5 10 = .ok id
      ∧ NewIDNumber [SetFromString (IDNumber.string id)] = .ok id2 :=
  random_generator_total ⟨1981, 7, 9⟩ 60 5 10 (by omega) (by decide) (by decide) (by decide)

/-- C7: the parse step fails with the length error exactly on the strings
whose length is not 13: every other-length input yields `lengthErr` (before
any inspection of the content), and no 13-character input ever yields that
particular error. -/
theorem parse_length_error_iff :
    (∀ (s : List Char) (idn : IDNumber), s.length ≠ 13 →
      SetFromString s idn = .error .lengthErr)
    ∧ (∀ (s : List Char) (idn : IDNumber), s.length = 13 →
      SetFromString s idn ≠ .error .lengthErr) := by
  constructor
  · intro s idn h
    simp only [SetFromString]
    rw [if_pos h]
  · intro s idn h hcontra
    simp only [SetFromString] at hcontra
    rw [if_neg (by omega)] at hcontra
    cases hdt : parseGoDate (s.take 6) with
    | none =>
      simp only [hdt] at hcontra
      exact Err.noConfusion (Except.error.inj hcontra)
    | some dt =>
      cases hg : goParseInt 32 ((s.drop 6).take 4) with
      | none =>
        simp only [hdt, hg] at hcontra
        exact Err.noConfusion (Except.error.inj hcontra)
      | some g =>
        cases hc : goParseInt 32 ((s.drop 10).take 1) with
        | none =>
          simp only [hdt, hg, hc] at hcontra
          exact Err.noConfusion (Except.error.inj hcontra)
        | some c =>
          cases hl : goParseInt 32 ((s.drop 12).take 1) with
          | none =>
            simp only [hdt, hg, hc, hl] at hcontra
            exact Err.noConfusion (Except.error.inj hcontra)
          | some lv =>
            simp only [hdt, hg, hc, hl] at hcontra
            exact Except.noConfusion hcontra

/-- C7 witness: the empty string fails with the length error and the
13-character scenario-A string does not. -/
theorem parse_length_error_iff_witness :
    SetFromString [] initDraft = .error .lengthErr
    ∧ SetFromString (("8107095005083").toList) initDraft ≠ .error .lengthErr :=
  ⟨parse_length_error_iff.1 [] initDraft (by decide),
   parse_length_error_iff.2 (("8107095005083").toList) initDraft (by decide)⟩

/-- C8 counterexample: the 4-character gender sub-field is read with
`strconv.ParseInt`, which accepts a leading sign, so the 13-character string
"810709-123083" parses successfully (storing gender code -123) instead of
failing with a numeric-field error as the claim demands. -/
theorem parse_accepts_signed_gender :
    SetFromString (("810709-123083").toList) initDraft
      = .ok ⟨⟨1981, 7, 9⟩, -123, 0, 3⟩ :=
  rfl

/-- C8 (amended): each of the gender, citizenship and checksum sub-fields of
a 13-character input must parse as a base-10 integer in the `strconv.ParseInt`
sense, where one leading sign character is accepted (so non-negativity is not
enforced); a sub-field failing that parse makes the whole parse fail with a
numeric error carrying that offending sub-string (the field is identified by
its text, not by name). -/
theorem parse_numeric_field_errors (s : List Char) (idn : IDNumber) (h13 : s.length = 13)
    (dt : Date) (hd : parseGoDate (s.take 6) = some dt) :
    (goParseInt 32 ((s.drop 6).take 4) = none →
      SetFromString s idn = .error (.numeric ((s.drop 6).take 4)))
    ∧ (∀ g, goParseInt 32 ((s.drop 6).take 4) = some g →
        goParseInt 32 ((s.drop 10).take 1) = none →
        SetFromString s idn = .error (.numeric ((s.drop 10).take 1)))
    ∧ (∀ g c, goParseInt 32 ((s.drop 6).take 4) = some g →
        goParseInt 32 ((s.drop 10).take 1) = some c →
        goParseInt 32 ((s.drop 12).take 1) = none →
        SetFromString s idn = .error (.numeric ((s.drop 12).take 1))) := by
  refine ⟨?_, ?_, ?_⟩
  · intro hg
    simp only [SetFromString]
    rw [if_neg (by omega), hd, hg]
  · intro g hg hc
    simp only [SetFromString]
    rw [if_neg (by omega), hd, hg, hc]
  · intro g c hg hc hl
    simp only [SetFromString]
    rw [if_neg (by omega), hd, hg, hc, hl]

/-- C8 witness: a non-numeric gender sub-field makes parsing fail with the
numeric error carrying that sub-string. -/
theorem parse_numeric_field_errors_witness :
    SetFromString (("810709a123083").toList) initDraft
      = .error (.numeric (((("810709a123083").toList).drop 6).take 4)) :=
  (parse_numeric_field_errors (("810709a123083").toList) initDraft rfl
    ⟨1981, 7, 9⟩ rfl).1 rfl

/-- C9 counterexample: `rand.Intn(100) > 50` holds for the 49 draws 51..99
and fails for the 51 draws 0..50, so neither the gender branch nor the
citizenship branch is an exact 50/50 split. -/
theorem random_branch_split_cex :
    ¬ ((List.range 100).countP (fun r => genderBranchFemale r) = 50
       ∧ (List.range 100).countP (fun r => citizenBranchCitizen r) = 50) := by
  decide

/-- C9 (amended): over the 100 equiprobable draws of `rand.Intn(100)`, the
female gender branch is taken on exactly 49 and the male branch on exactly
51; likewise Citizen on exactly 49 and PermanentResident on exactly 51 — a
49/51 split, not 50/50. -/
theorem random_branch_split :
    (List.range 100).countP (fun r => genderBranchFemale r) = 49
    ∧ (List.range 100).countP (fun r => !genderBranchFemale r) = 51
    ∧ (List.range 100).countP (fun r => citizenBranchCitizen r) = 49
    ∧ (List.range 100).countP (fun r => !citizenBranchCitizen r) = 51 := by
  decide

/-- C10: the parse step never inspects position 11: for any 13-character
input split as 11 characters of valid date/gender/citizenship fields, an
arbitrary character at index 11 and a valid checksum character at index 12,
parsing succeeds with the fields read around that position; and the
formatted string of every finalized identifier carries the fixed digit 8 at
index 11. -/
theorem legacy_position_ignored :
    (∀ (pre : List Char) (x l : Char) (idn : IDNumber) (dt : Date) (g c lv : Int),
      pre.length = 11 →
      parseGoDate (pre.take 6) = some dt →
      goParseInt 32 ((pre.drop 6).take 4) = some g →
      goParseInt 32 (pre.drop 10) = some c →
      goParseInt 32 [l] = some lv →
      SetFromString (pre ++ [x, l]) idn = .ok ⟨dt, g, c, lv⟩)
    ∧ (∀ (d id : IDNumber), ValidDate d.birthdate → 0 ≤ d.gender → d.gender ≤ 9999 →
        0 ≤ d.citizenship → d.citizenship ≤ 9 → finalize d = .ok id →
        (IDNumber.string id).getD 11 ' ' = '8') := by
  constructor
  · intro pre x l idn dt g c lv hpre hdt hg hc hl
    have h13 : (pre ++ [x, l]).length = 13 := by
      rw [List.length_append, hpre]
      rfl
    have e6 : (pre ++ [x, l]).take 6 = pre.take 6 :=
      take_app_le pre [x, l] 6 (by omega)
    have ed6 : (pre ++ [x, l]).drop 6 = pre.drop 6 ++ [x, l] :=
      drop_app_le pre [x, l] 6 (by omega)
    have e4 : ((pre ++ [x, l]).drop 6).take 4 = (pre.drop 6).take 4 := by
      rw [ed6]
      exact take_app_le (pre.drop 6) [x, l] 4 (by rw [List.length_drop]; omega)
    have e10 : ((pre ++ [x, l]).drop 10).take 1 = pre.drop 10 := by
      rw [drop_app_le pre [x, l] 10 (by omega)]
      rw [take_app_le (pre.drop 10) [x, l] 1 (by rw [List.length_drop]; omega)]
      exact take_exact (pre.drop 10) 1 (by rw [List.length_drop]; omega)
    have e12 : ((pre ++ [x, l]).drop 12).take 1 = [l] := by
      rw [show (12 : Nat) = pre.length + 1 by omega, drop_app]
      rfl
    exact SetFromString_ok (pre ++ [x, l]) idn dt g c lv h13
      (by rw [e6]; exact hdt) (by rw [e4]; exact hg) (by rw [e10]; exact hc)
      (by rw [e12]; exact hl)
  · intro d id hv hg0 hg hc0 hc hfin
    exact string_getD11 d id hv hg0 hg hc0 hc hfin

/-- C10 witness: parsing with a junk character at index 11 succeeds, and the
scenario-A identifier's string carries 8 at index 11. -/
theorem legacy_position_ignored_witness :
    SetFromString ((("81070950050").toList) ++ ['Z', '3']) initDraft
      = .ok ⟨⟨1981, 7, 9⟩, 5005, 0, 3⟩
    ∧ (IDNumber.string ⟨⟨1981, 7, 9⟩, 5005, 0, 3⟩).getD 11 ' ' = '8' :=
  ⟨legacy_position_ignored.1 (("81070950050").toList) 'Z' '3' initDraft
      ⟨1981, 7, 9⟩ 5005 0 3 rfl rfl rfl rfl rfl,
   legacy_position_ignored.2 ⟨⟨1981, 7, 9⟩, 5005, 0, -1⟩ ⟨⟨1981, 7, 9⟩, 5005, 0, 3⟩
      (by decide) (by decide) (by decide) (by decide) (by decide) (by rfl)⟩

end IdNum
